import Mathlib

/-!
Shallow embedding of the webflow-experts-router core:
the route-combination generator with expert-count pruning
(`lib/route-generator.js`) and the expert query engine
(`api/get-experts.js`, certification-aware variant), together with
proofs of the specified properties.

JS value conventions used throughout:
* string-or-undefined fields are `Option String` (`none` = `undefined`/`null`);
* JS truthiness of such a field is `truthy` below (`undefined`, `null` and
  `""` are falsy);
* array-valued fields that the source always normalises with `|| []` are
  `List _` with `[]` for the absent case (an empty JS array is truthy, so
  `|| []` fires exactly on `undefined`, making the two representations agree
  at every use site);
* item identifiers are modelled as the resolved string `item.id || item._id`;
* a JS `Map` built by successive `set` calls, and a JS object built by
  successive key assignments, resolve a key to the *last* binding, hence the
  `reverse.find?` lookups below.
-/

namespace ExpertsRouter

/-- Truthiness of a JS string-or-undefined value. -/
def truthy : Option String → Bool
  | some s => s != ""
  | none => false

/-- JS logical-or on string-or-undefined values: returns the first operand
when it is truthy, otherwise the second. -/
def jsOr (a b : Option String) : Option String := if truthy a then a else b

/-- Code points matched by the ECMAScript regex class backslash-s, also the
set trimmed by `String.prototype.trim`. -/
def jsWhitespace (c : Char) : Bool :=
  c.toNat = 32 || c.toNat = 9 || c.toNat = 10 || c.toNat = 11 || c.toNat = 12 ||
  c.toNat = 13 || c.toNat = 160 || c.toNat = 0x1680 ||
  (0x2000 ≤ c.toNat && c.toNat ≤ 0x200a) || c.toNat = 0x2028 || c.toNat = 0x2029 ||
  c.toNat = 0x202f || c.toNat = 0x205f || c.toNat = 0x3000 || c.toNat = 0xfeff

/-- Code points matched by the ECMAScript regex class backslash-w,
namely `[A-Za-z0-9_]`. -/
def isWordChar (c : Char) : Bool :=
  (65 ≤ c.toNat && c.toNat ≤ 90) || (97 ≤ c.toNat && c.toNat ≤ 122) ||
  (48 ≤ c.toNat && c.toNat ≤ 57) || c.toNat = 95

/-- JS `String.prototype.toLowerCase` restricted to the simple one-to-one
case mappings the slugs here exercise (ASCII); on the character level this is
`Char.toLower`. -/
def lowerString (s : String) : String := String.mk (s.data.map Char.toLower)

/-- JS `String.prototype.trim`: drop whitespace from both ends. -/
def jsTrim (l : List Char) : List Char :=
  ((l.dropWhile jsWhitespace).reverse.dropWhile jsWhitespace).reverse

/-- Embedding of `.replace` of one-or-more-whitespace by a hyphen (global):
every maximal whitespace run becomes one hyphen. The flag records whether the
head of the remaining input continues a run already replaced. -/
def spacesToHyphens : Bool → List Char → List Char
  | _, [] => []
  | inRun, c :: rest =>
    if jsWhitespace c then
      if inRun then spacesToHyphens true rest
      else '-' :: spacesToHyphens true rest
    else c :: spacesToHyphens false rest

/-- Embedding of `.replace` deleting every run of characters outside
word-or-hyphen (global): a filter. -/
def stripNonWord (l : List Char) : List Char :=
  l.filter fun c => isWordChar c || c = '-'

/-- Embedding of `.replace` of two-or-more hyphens by a single hyphen
(global): every hyphen run collapses to one hyphen (length-1 runs are
untouched by the regex and unchanged here). -/
def collapseHyphens : Bool → List Char → List Char
  | _, [] => []
  | inRun, c :: rest =>
    if c = '-' then
      if inRun then collapseHyphens true rest
      else '-' :: collapseHyphens true rest
    else c :: collapseHyphens false rest

/-- Embedding of `.replace` of leading hyphens by the empty string. -/
def trimLeadingHyphens (l : List Char) : List Char :=
  l.dropWhile fun c => c = '-'

/-- Embedding of `.replace` of trailing hyphens by the empty string. -/
def trimTrailingHyphens (l : List Char) : List Char :=
  (l.reverse.dropWhile fun c => c = '-').reverse

/-- The slugify pipeline on character lists, in source order: lowercase,
trim, whitespace runs to hyphen, strip non-word, collapse hyphen runs, trim
leading hyphens, trim trailing hyphens. -/
def slugifyChars (l : List Char) : List Char :=
  trimTrailingHyphens (trimLeadingHyphens (collapseHyphens false
    (stripNonWord (spacesToHyphens false (jsTrim (l.map Char.toLower))))))

/-- Embedding of `RouteGenerator.slugify`. The guard mirrors the source's
early return of the empty string on a falsy argument. -/
def slugify (s : String) : String :=
  if s = "" then "" else String.mk (slugifyChars s.data)

/-- The `fieldData` object of a CMS item. Fields the source reads are
modelled explicitly; `stringValues` holds the string-valued entries of
`Object.values(fieldData)` in object order (the slug fallback search only
ever accepts string values, so non-string entries are omitted).
`expertCategory` is the field named `expert-category`, `skills2` the field
named `skills-2`. -/
structure FieldData where
  slug : Option String := none
  name : Option String := none
  state : Option String := none
  city : Option String := none
  expertCategory : List String := []
  category : List String := []
  skills2 : List String := []
  certifications : List String := []
  isArchived : Bool := false
  hidden : Bool := false
  cityName : Option String := none
  stateName : Option String := none
  skillNames : List String := []
  certificationNames : List String := []
  stringValues : List String := []
deriving Repr, DecidableEq

/-- A CMS item (state, city, category, skill, certification or expert). -/
structure Item where
  id : String
  slug : Option String := none
  name : Option String := none
  state : Option String := none
  isArchived : Bool := false
  fieldData : Option FieldData := none
  stringValues : List String := []
deriving Repr, DecidableEq

/-- JS access `item.fieldData?.slug`. -/
def Item.fdSlug (i : Item) : Option String := i.fieldData.bind (·.slug)

/-- JS access `item.fieldData?.name`. -/
def Item.fdName (i : Item) : Option String := i.fieldData.bind (·.name)

/-- JS access `item.fieldData?.state`. -/
def Item.fdState (i : Item) : Option String := i.fieldData.bind (·.state)

/-- JS expression `item.fieldData?.name || item.name`, the display name used
throughout the generator. -/
def Item.displayName (i : Item) : Option String := jsOr i.fdName i.name

/-- JS expression for a skill's category references,
`skill.fieldData?.[expert-category] || []`. -/
def Item.expertCategoryRefs (i : Item) : List String :=
  (i.fieldData.map (·.expertCategory)).getD []

/-- JS expression for a certification's category references,
`certification.fieldData?.category || []`. -/
def Item.categoryRefs (i : Item) : List String :=
  (i.fieldData.map (·.category)).getD []

/-- Embedding of `RouteGenerator.getSlugFromItem`: try the explicit slug
fields, then the name fields slugified, then the first string field of
length strictly between 0 and 100, slugified; otherwise null. -/
def getSlugFromItem (item : Item) : Option String :=
  if truthy item.slug then item.slug
  else if truthy item.fdSlug then item.fdSlug
  else if truthy item.fdName then some (slugify (item.fdName.getD ""))
  else if truthy item.name then some (slugify (item.name.getD ""))
  else
    let vals := match item.fieldData with
      | some fd => fd.stringValues
      | none => item.stringValues
    match vals.find? (fun v => 0 < v.length && v.length < 100) with
    | some v => some (slugify v)
    | none => none

/-- Embedding of `RouteGenerator.getStateSlug`, which delegates to
`getSlugFromItem`. -/
def getStateSlug (state : Item) : Option String := getSlugFromItem state

/-- Truthy slug of an item, as tested by the generators' negated-slug
guards: `none` when the resolved slug is absent or empty. -/
def routableSlug (item : Item) : Option String :=
  match getSlugFromItem item with
  | some s => if s = "" then none else some s
  | none => none

/-- Lookup in a JS `Map` keyed by item id (built by successive `set`). -/
def mapGetById (items : List Item) (key : String) : Option Item :=
  items.reverse.find? fun i => i.id == key

/-- Lookup in the name-keyed state `Map`: keys are lowercased display names
of states whose display name is truthy. -/
def stateByLowerName (states : List Item) (key : String) : Option Item :=
  states.reverse.find? fun st =>
    truthy st.displayName && (lowerString (st.displayName.getD "") == key)

/-- JS expression `city.fieldData?.state || city.state`, the city's raw
state reference. -/
def cityStateRef (city : Item) : Option String := jsOr city.fdState city.state

/-- State resolution for a city as performed by the city-route generators:
identifier lookup first, then — when the reference is a present string —
case-insensitive name lookup; `none` when both miss (the city is skipped). -/
def resolveStateForCity (states : List Item) (city : Item) : Option Item :=
  match cityStateRef city with
  | none => none
  | some r =>
    match mapGetById states r with
    | some st => some st
    | none => stateByLowerName states (lowerString r)

/-- Parameter bag of a generated route. Every field the JS object may carry
is optional; generators set the fields of their route kind. -/
structure RouteParams where
  state : Option String := none
  city : Option String := none
  category : Option String := none
  skill : Option String := none
  certification : Option String := none
  stateId : Option String := none
  cityId : Option String := none
  categoryId : Option String := none
  skillId : Option String := none
  certificationId : Option String := none
  stateName : Option String := none
  cityName : Option String := none
  categoryName : Option String := none
  skillName : Option String := none
  certificationName : Option String := none
  expertCount : Option Nat := none
deriving Repr, DecidableEq

/-- A generated route. -/
structure Route where
  path : String
  type : String
  params : RouteParams
deriving Repr, DecidableEq

/-- Routes contributed by one state-and-skill pair inside
`generateStateRoutes`: one route per resolvable referenced category. -/
def stateRoutesForSkill (categories : List Item) (basePath : String)
    (state : Item) (stateSlug : String) (skill : Item) : List Route :=
  match routableSlug skill with
  | none => []
  | some skillSlug =>
    skill.expertCategoryRefs.filterMap fun categoryId =>
      match mapGetById categories categoryId with
      | none => none
      | some category =>
        match routableSlug category with
        | none => none
        | some categorySlug =>
          some {
            path := basePath ++ "/" ++ stateSlug ++ "/" ++ categorySlug ++ "/" ++ skillSlug,
            type := "state",
            params := {
              state := some stateSlug, category := some categorySlug,
              skill := some skillSlug,
              stateId := some state.id, categoryId := some category.id,
              skillId := some skill.id,
              stateName := state.displayName, categoryName := category.displayName,
              skillName := skill.displayName } }

/-- Embedding of `RouteGenerator.generateStateRoutes`. -/
def generateStateRoutes (states skills categories : List Item)
    (basePath : String) : List Route :=
  states.flatMap fun state =>
    match routableSlug state with
    | none => []
    | some stateSlug =>
      skills.flatMap (stateRoutesForSkill categories basePath state stateSlug)

/-- Routes contributed by one state-and-certification pair inside
`generateStateCertificationRoutes`. -/
def stateRoutesForCert (categories : List Item) (basePath : String)
    (state : Item) (stateSlug : String) (certification : Item) : List Route :=
  match routableSlug certification with
  | none => []
  | some certSlug =>
    certification.categoryRefs.filterMap fun categoryId =>
      match mapGetById categories categoryId with
      | none => none
      | some category =>
        match routableSlug category with
        | none => none
        | some categorySlug =>
          some {
            path := basePath ++ "/" ++ stateSlug ++ "/" ++ categorySlug ++ "/" ++ certSlug,
            type := "state-certification",
            params := {
              state := some stateSlug, category := some categorySlug,
              certification := some certSlug,
              stateId := some state.id, categoryId := some category.id,
              certificationId := some certification.id,
              stateName := state.displayName, categoryName := category.displayName,
              certificationName := certification.displayName } }

/-- Embedding of `RouteGenerator.generateStateCertificationRoutes`. -/
def generateStateCertificationRoutes (states certifications categories : List Item)
    (basePath : String) : List Route :=
  states.flatMap fun state =>
    match routableSlug state with
    | none => []
    | some stateSlug =>
      certifications.flatMap (stateRoutesForCert categories basePath state stateSlug)

/-- Routes contributed by one city-and-skill pair inside
`generateCityRoutes`. -/
def cityRoutesForSkill (categories : List Item) (basePath : String)
    (city : Item) (citySlug : String) (state : Item) (stateSlug : String)
    (skill : Item) : List Route :=
  match routableSlug skill with
  | none => []
  | some skillSlug =>
    skill.expertCategoryRefs.filterMap fun categoryId =>
      match mapGetById categories categoryId with
      | none => none
      | some category =>
        match routableSlug category with
        | none => none
        | some categorySlug =>
          some {
            path := basePath ++ "/" ++ stateSlug ++ "/" ++ citySlug ++ "/" ++
              categorySlug ++ "/" ++ skillSlug,
            type := "city",
            params := {
              city := some citySlug, state := some stateSlug,
              category := some categorySlug, skill := some skillSlug,
              cityId := some city.id, stateId := some state.id,
              categoryId := some category.id, skillId := some skill.id,
              cityName := city.displayName, stateName := state.displayName,
              categoryName := category.displayName, skillName := skill.displayName } }

/-- Routes contributed by one city inside `generateCityRoutes`: slug guard,
state resolution, state slug guard, then the per-skill fan-out. -/
def cityRoutesForCity (states skills categories : List Item)
    (basePath : String) (city : Item) : List Route :=
  match routableSlug city with
  | none => []
  | some citySlug =>
    match resolveStateForCity states city with
    | none => []
    | some state =>
      match routableSlug state with
      | none => []
      | some stateSlug =>
        skills.flatMap (cityRoutesForSkill categories basePath city citySlug state stateSlug)

/-- Embedding of `RouteGenerator.generateCityRoutes`. -/
def generateCityRoutes (cities states skills categories : List Item)
    (basePath : String) : List Route :=
  cities.flatMap (cityRoutesForCity states skills categories basePath)

/-- Routes contributed by one city-and-certification pair inside
`generateCityCertificationRoutes`. -/
def cityRoutesForCert (categories : List Item) (basePath : String)
    (city : Item) (citySlug : String) (state : Item) (stateSlug : String)
    (certification : Item) : List Route :=
  match routableSlug certification with
  | none => []
  | some certSlug =>
    certification.categoryRefs.filterMap fun categoryId =>
      match mapGetById categories categoryId with
      | none => none
      | some category =>
        match routableSlug category with
        | none => none
        | some categorySlug =>
          some {
            path := basePath ++ "/" ++ stateSlug ++ "/" ++ citySlug ++ "/" ++
              categorySlug ++ "/" ++ certSlug,
            type := "city-certification",
            params := {
              city := some citySlug, state := some stateSlug,
              category := some categorySlug, certification := some certSlug,
              cityId := some city.id, stateId := some state.id,
              categoryId := some category.id,
              certificationId := some certification.id,
              cityName := city.displayName, stateName := state.displayName,
              categoryName := category.displayName,
              certificationName := certification.displayName } }

/-- Embedding of `RouteGenerator.generateCityCertificationRoutes`. -/
def generateCityCertificationRoutes (cities states certifications categories : List Item)
    (basePath : String) : List Route :=
  cities.flatMap fun city =>
    match routableSlug city with
    | none => []
    | some citySlug =>
      match resolveStateForCity states city with
      | none => []
      | some state =>
        match routableSlug state with
        | none => []
        | some stateSlug =>
          certifications.flatMap
            (cityRoutesForCert categories basePath city citySlug state stateSlug)

/-- Embedding of `RouteGenerator.generateStateCategoryRoutes`. -/
def generateStateCategoryRoutes (states categories : List Item)
    (basePath : String) : List Route :=
  states.flatMap fun state =>
    match routableSlug state with
    | none => []
    | some stateSlug =>
      categories.filterMap fun category =>
        match routableSlug category with
        | none => none
        | some categorySlug =>
          some {
            path := basePath ++ "/" ++ stateSlug ++ "/" ++ categorySlug,
            type := "state-category",
            params := {
              state := some stateSlug, category := some categorySlug,
              stateId := some state.id, categoryId := some category.id,
              stateName := state.displayName,
              categoryName := category.displayName } }

/-- The route contributed by one city inside `generateStateCityRoutes`:
slug guard, state resolution, state slug guard, then the single
state-and-city route. -/
def stateCityRouteForCity (states : List Item) (basePath : String)
    (city : Item) : Option Route :=
  match routableSlug city with
  | none => none
  | some citySlug =>
    match resolveStateForCity states city with
    | none => none
    | some state =>
      match routableSlug state with
      | none => none
      | some stateSlug =>
        some {
          path := basePath ++ "/" ++ stateSlug ++ "/" ++ citySlug,
          type := "state-city",
          params := {
            state := some stateSlug, city := some citySlug,
            stateId := some state.id, cityId := some city.id,
            stateName := state.displayName, cityName := city.displayName } }

/-- Embedding of `RouteGenerator.generateStateCityRoutes`. -/
def generateStateCityRoutes (cities states : List Item)
    (basePath : String) : List Route :=
  cities.filterMap (stateCityRouteForCity states basePath)

/-- Embedding of `RouteGenerator.generateStateCityCategoryRoutes`. -/
def generateStateCityCategoryRoutes (cities states categories : List Item)
    (basePath : String) : List Route :=
  cities.flatMap fun city =>
    match routableSlug city with
    | none => []
    | some citySlug =>
      match resolveStateForCity states city with
      | none => []
      | some state =>
        match routableSlug state with
        | none => []
        | some stateSlug =>
          categories.filterMap fun category =>
            match routableSlug category with
            | none => none
            | some categorySlug =>
              some {
                path := basePath ++ "/" ++ stateSlug ++ "/" ++ citySlug ++ "/" ++ categorySlug,
                type := "state-city-category",
                params := {
                  state := some stateSlug, city := some citySlug,
                  category := some categorySlug,
                  stateId := some state.id, cityId := some city.id,
                  categoryId := some category.id,
                  stateName := state.displayName, cityName := city.displayName,
                  categoryName := category.displayName } }

/-- Filter record passed to `countExpertsForRoute` by `generateAllRoutes`. -/
structure RouteFilters where
  stateId : Option String := none
  cityId : Option String := none
  categoryId : Option String := none
  skillId : Option String := none
  certificationId : Option String := none
  skills : Option (List Item) := none
  certifications : Option (List Item) := none

/-- Skill ids whose category references contain the filter's category, built
when both `categoryId` (truthy) and a `skills` list are supplied; the source
inserts `skill.id` into a `Set`. -/
def routeSkillsInCategory (filters : RouteFilters) : List String :=
  match filters.skills with
  | some sks =>
    if truthy filters.categoryId then
      (sks.filter fun sk => sk.expertCategoryRefs.contains (filters.categoryId.getD "")).map (·.id)
    else []
  | none => []

/-- Certification ids whose category references contain the filter's
category, built when both `categoryId` and a `certifications` list are
supplied. -/
def routeCertsInCategory (filters : RouteFilters) : List String :=
  match filters.certifications with
  | some certs =>
    if truthy filters.categoryId then
      (certs.filter fun ct => ct.categoryRefs.contains (filters.categoryId.getD "")).map (·.id)
    else []
  | none => []

/-- The per-expert predicate inside `countExpertsForRoute`: the sequence of
early-return checks, conjunctively. The category check only runs when
`categoryId` is truthy and neither `skillId` nor `certificationId` is. -/
def expertMatchesRouteFilters (filters : RouteFilters) (expert : Item) : Bool :=
  let data := expert.fieldData.getD {}
  let sIC := routeSkillsInCategory filters
  let cIC := routeCertsInCategory filters
  (!truthy filters.stateId || data.state == filters.stateId) &&
  (!truthy filters.cityId || data.city == filters.cityId) &&
  (!truthy filters.skillId || data.skills2.contains (filters.skillId.getD "")) &&
  (!truthy filters.certificationId ||
    data.certifications.contains (filters.certificationId.getD "")) &&
  (!(truthy filters.categoryId && !truthy filters.skillId &&
      !truthy filters.certificationId) ||
    (data.skills2.any (sIC.contains ·) || data.certifications.any (cIC.contains ·)))

/-- Embedding of `RouteGenerator.countExpertsForRoute`. -/
def countExpertsForRoute (experts : List Item) (filters : RouteFilters) : Nat :=
  (experts.filter (expertMatchesRouteFilters filters)).length

/-- The per-route pruning step of `generateAllRoutes` on a candidate route
paired with its filter record: attach the computed count to the parameter
bag, keep the route only when the count is positive. -/
def pruneStep (experts : List Item) (rc : Route × RouteFilters) : Option Route :=
  if 0 < countExpertsForRoute experts rc.2 then
    some { rc.1 with params := { rc.1.params with
      expertCount := some (countExpertsForRoute experts rc.2) } }
  else none

/-- The pruning `generateAllRoutes` applies to each candidate list. -/
def pruneRoutes (experts : List Item) (mkFilters : Route → RouteFilters)
    (routes : List Route) : List Route :=
  routes.filterMap fun route => pruneStep experts (route, mkFilters route)

/-- Filters `generateAllRoutes` builds for a state-and-category route. -/
def stateCategoryFilters (skills certifications : List Item) (r : Route) : RouteFilters :=
  { stateId := r.params.stateId, categoryId := r.params.categoryId,
    skills := some skills, certifications := some certifications }

/-- Filters `generateAllRoutes` builds for a state-and-city route. -/
def stateCityFilters (r : Route) : RouteFilters :=
  { stateId := r.params.stateId, cityId := r.params.cityId }

/-- Filters `generateAllRoutes` builds for a state-city-category route. -/
def stateCityCategoryFilters (skills certifications : List Item) (r : Route) : RouteFilters :=
  { stateId := r.params.stateId, cityId := r.params.cityId,
    categoryId := r.params.categoryId,
    skills := some skills, certifications := some certifications }

/-- Filters `generateAllRoutes` builds for a state-level skill route: note
that no `categoryId` is passed. -/
def stateSkillFilters (r : Route) : RouteFilters :=
  { stateId := r.params.stateId, skillId := r.params.skillId }

/-- Filters `generateAllRoutes` builds for a city-level skill route. -/
def citySkillFilters (r : Route) : RouteFilters :=
  { stateId := r.params.stateId, cityId := r.params.cityId,
    skillId := r.params.skillId }

/-- Filters `generateAllRoutes` builds for a state-level certification
route: note that no `categoryId` is passed. -/
def stateCertFilters (r : Route) : RouteFilters :=
  { stateId := r.params.stateId, certificationId := r.params.certificationId }

/-- Filters `generateAllRoutes` builds for a city-level certification
route. -/
def cityCertFilters (r : Route) : RouteFilters :=
  { stateId := r.params.stateId, cityId := r.params.cityId,
    certificationId := r.params.certificationId }

/-- Input record of `generateAllRoutes`; an absent expert list is modelled
as `[]` (the source only prunes when `experts && experts.length > 0`). -/
structure GenData where
  cities : List Item
  states : List Item
  skills : List Item
  categories : List Item
  experts : List Item
  certifications : List Item := []

/-- Per-kind and total counts reported by `generateAllRoutes`. -/
structure RouteStats where
  total : Nat
  stateCategory : Nat
  stateCity : Nat
  stateCityCategory : Nat
  stateLevel : Nat
  cityLevel : Nat
  stateCertLevel : Nat
  cityCertLevel : Nat
  states : Nat
  cities : Nat
  categories : Nat
  skills : Nat
  certifications : Nat
deriving Repr, DecidableEq

/-- Result record of `generateAllRoutes`. -/
structure GenResult where
  stateCategoryRoutes : List Route
  stateCityRoutes : List Route
  stateCityCategoryRoutes : List Route
  stateRoutes : List Route
  cityRoutes : List Route
  stateCertRoutes : List Route
  cityCertRoutes : List Route
  allRoutes : List Route
  stats : RouteStats

/-- Embedding of `RouteGenerator.generateAllRoutes`: generate the seven
candidate lists, prune each by live expert count when an expert list is
supplied, and concatenate in source order. -/
def generateAllRoutes (data : GenData) (basePath : String) : GenResult :=
  let scr0 := generateStateCategoryRoutes data.states data.categories basePath
  let sci0 := generateStateCityRoutes data.cities data.states basePath
  let scc0 := generateStateCityCategoryRoutes data.cities data.states data.categories basePath
  let sr0 := generateStateRoutes data.states data.skills data.categories basePath
  let cr0 := generateCityRoutes data.cities data.states data.skills data.categories basePath
  let sce0 := generateStateCertificationRoutes data.states data.certifications data.categories basePath
  let cce0 := generateCityCertificationRoutes data.cities data.states data.certifications data.categories basePath
  let doPrune := data.experts ≠ []
  let scr := if doPrune then
      pruneRoutes data.experts (stateCategoryFilters data.skills data.certifications) scr0
    else scr0
  let sci := if doPrune then pruneRoutes data.experts stateCityFilters sci0 else sci0
  let scc := if doPrune then
      pruneRoutes data.experts (stateCityCategoryFilters data.skills data.certifications) scc0
    else scc0
  let sr := if doPrune then pruneRoutes data.experts stateSkillFilters sr0 else sr0
  let cr := if doPrune then pruneRoutes data.experts citySkillFilters cr0 else cr0
  let sce := if doPrune then pruneRoutes data.experts stateCertFilters sce0 else sce0
  let cce := if doPrune then pruneRoutes data.experts cityCertFilters cce0 else cce0
  let all := scr ++ sci ++ scc ++ sr ++ cr ++ sce ++ cce
  { stateCategoryRoutes := scr, stateCityRoutes := sci, stateCityCategoryRoutes := scc,
    stateRoutes := sr, cityRoutes := cr, stateCertRoutes := sce, cityCertRoutes := cce,
    allRoutes := all,
    stats := {
      total := all.length, stateCategory := scr.length, stateCity := sci.length,
      stateCityCategory := scc.length, stateLevel := sr.length, cityLevel := cr.length,
      stateCertLevel := sce.length, cityCertLevel := cce.length,
      states := data.states.length, cities := data.cities.length,
      categories := data.categories.length, skills := data.skills.length,
      certifications := data.certifications.length } }

/-- A route manifest: a path-keyed JS object (later assignments overwrite
earlier ones), a generation timestamp string and a route count. -/
structure RouteManifest where
  routes : List (String × RouteParams)
  generated : String
  count : Nat

/-- Embedding of `RouteGenerator.createRouteManifest`; the timestamp string
produced by the clock is passed in. -/
def createRouteManifest (routes : List Route) (generatedAt : String) : RouteManifest :=
  { routes := routes.map fun r => (r.path, r.params),
    generated := generatedAt,
    count := routes.length }

/-- Path lookup in a manifest, resolving to the last assignment for the
path, as JS object assignment does. -/
def manifestLookup (m : RouteManifest) (path : String) : Option RouteParams :=
  (m.routes.reverse.find? fun kv => kv.1 == path).map (·.2)

/-- Query-string filters of the get-experts endpoint. -/
structure QueryFilters where
  stateId : Option String := none
  cityId : Option String := none
  categoryId : Option String := none
  skillId : Option String := none
  certificationId : Option String := none

/-- Resolution of an id through a name lookup `Map` built as
`map.set(item.id, item.fieldData?.name || item.name)`: the stored value may
itself be undefined, which a `get` miss also yields. -/
def nameById (items : List Item) (key : String) : Option String :=
  (items.reverse.find? fun i => i.id == key).bind (·.displayName)

/-- JS helper used by `enrichExperts` for `cityName`/`stateName`: the
looked-up value followed by the `|| null` coercion of falsy to null. -/
def nameByIdOrNull (items : List Item) (key : Option String) : Option String :=
  let n := key.bind (nameById items)
  if truthy n then n else none

/-- Embedding of `enrichExperts` (get-experts): attach resolved city, state,
skill and certification display names to each expert's field data;
unresolved or falsy names are dropped. -/
def enrichExperts (experts cities states skills certifications : List Item) : List Item :=
  experts.map fun expert =>
    let data := expert.fieldData.getD {}
    { expert with fieldData := some { data with
        cityName := nameByIdOrNull cities data.city,
        stateName := nameByIdOrNull states data.state,
        skillNames :=
          (data.skills2.filterMap (nameById skills)).filter (fun n => n != ""),
        certificationNames :=
          (data.certifications.filterMap (nameById certifications)).filter
            (fun n => n != "") } }

/-- Skill ids belonging to the queried category, built by `filterExperts`
when `categoryId` is truthy. -/
def querySkillsInCategory (skills : List Item) (categoryId : Option String) : List String :=
  if truthy categoryId then
    (skills.filter fun sk => sk.expertCategoryRefs.contains (categoryId.getD "")).map (·.id)
  else []

/-- Certification ids belonging to the queried category; `filterExperts`
builds this set but its per-expert category check never consults it. -/
def queryCertsInCategory (certifications : List Item) (categoryId : Option String) : List String :=
  if truthy categoryId then
    (certifications.filter fun ct => ct.categoryRefs.contains (categoryId.getD "")).map (·.id)
  else []

/-- The per-expert predicate inside `filterExperts` (get-experts,
certification-aware variant): all supplied filters conjunctively, and the
category check — requiring a skill in the category — runs whenever
`categoryId` is truthy, even when `skillId` or `certificationId` is also
present. -/
def expertMatchesQuery (skills : List Item) (f : QueryFilters) (expert : Item) : Bool :=
  let data := expert.fieldData.getD {}
  let sIC := querySkillsInCategory skills f.categoryId
  (!truthy f.stateId || data.state == f.stateId) &&
  (!truthy f.cityId || data.city == f.cityId) &&
  (!truthy f.skillId || data.skills2.contains (f.skillId.getD "")) &&
  (!truthy f.certificationId ||
    data.certifications.contains (f.certificationId.getD "")) &&
  (!truthy f.categoryId || data.skills2.any (sIC.contains ·))

/-- Embedding of `filterExperts` (get-experts, certification-aware variant):
early return of the whole list when every filter is falsy, otherwise the
conjunctive filter. -/
def filterExperts (experts skills certifications : List Item)
    (f : QueryFilters) : List Item :=
  if !truthy f.stateId && !truthy f.cityId && !truthy f.categoryId &&
      !truthy f.skillId && !truthy f.certificationId then
    experts
  else
    -- queryCertsInCategory certifications f.categoryId is built by the
    -- source here but never read by the predicate below
    experts.filter (expertMatchesQuery skills f)

/-- JS in-place destructuring swap of two array positions. Out-of-range
indices (unreachable for the in-range draws produced by a fractional random
value in `[0,1)`) leave the list unchanged. -/
def listSwap {α : Type} (l : List α) (i j : Nat) : List α :=
  match l.get? i, l.get? j with
  | some a, some b => (l.set i b).set j a
  | _, _ => l

/-- The random draw index of the Fisher–Yates step: `floor(r * (i + 1))`
where `r` abstracts `frac(sin(seed + i) * 10000)`. -/
def drawIndex (rand : Int → ℚ) (seed : Int) (i : Nat) : Nat :=
  (⌊rand (seed + (i : Int)) * ((i : ℚ) + 1)⌋).toNat

/-- The seeded Fisher–Yates loop of `seededShuffle`: perform the swaps for
indices `i, i - 1, ..., 1`. -/
def shuffleSteps {α : Type} (rand : Int → ℚ) (seed : Int) : List α → Nat → List α
  | l, 0 => l
  | l, n + 1 => shuffleSteps rand seed (listSwap l (n + 1) (drawIndex rand seed (n + 1))) n

/-- Embedding of `seededShuffle` (get-experts): copy the array and run the
Fisher–Yates loop from index `length - 1` down to `1`. The transcendental
draw `frac(sin(s) * 10000)` is abstracted as the parameter `rand`; every
value it can actually take lies in `[0, 1)`. -/
def seededShuffle {α : Type} (rand : Int → ℚ) (l : List α) (seed : Int) : List α :=
  shuffleSteps rand seed l (l.length - 1)

/-- Embedding of `getDailySeed` (get-experts) with the clock abstracted:
`year` is the current calendar year and `diffMs` the millisecond difference
between now and the zeroth of January of that year; the seed is
`year * 1000 + dayOfYear`. -/
def getDailySeed (year : Nat) (diffMs : Nat) : Nat :=
  let dayOfYear := diffMs / (1000 * 60 * 60 * 24)
  year * 1000 + dayOfYear

/-- Response body of the get-experts endpoint (the fields the pagination
contract speaks about). -/
structure QueryResponse where
  items : List Item
  count : Nat
  total : Nat
  limit : Nat
  offset : Nat
  hasMore : Bool
deriving Repr, DecidableEq

/-- Embedding of the get-experts request handler core: enrich, filter,
shuffle with the daily seed, then slice `[offset, offset + limit)`.
`limit` and `offset` are the already-parsed non-negative integers. -/
def handleGetExperts (experts skills cities states certifications : List Item)
    (f : QueryFilters) (rand : Int → ℚ) (seed : Int)
    (limit offset : Nat) : QueryResponse :=
  let enriched := enrichExperts experts cities states skills certifications
  let filtered := filterExperts enriched skills certifications f
  let shuffled := seededShuffle rand filtered seed
  let paginated := (shuffled.drop offset).take limit
  { items := paginated,
    count := paginated.length,
    total := filtered.length,
    limit := limit,
    offset := offset,
    hasMore := decide (offset + paginated.length < filtered.length) }

/-- A module-level cache cell of get-experts: stored value, fetch timestamp
and time-to-live. -/
structure CacheCell where
  data : Option (List Item) := none
  timestamp : Int := 0
  ttl : Int
deriving Repr, DecidableEq

/-- The source-boundary exclusion applied by `getExperts` to a fetched
expert list: drop archived and hidden entries. -/
def filterActiveExperts (experts : List Item) : List Item :=
  experts.filter fun e =>
    !e.isArchived && !(e.fieldData.getD {}).isArchived && !(e.fieldData.getD {}).hidden

/-- Embedding of `getExperts` (get-experts) as a state transition on its
cache cell: a fresh cell answers from the cache; otherwise the underlying
fetch — whose outcome is passed in as an `Except` — either fails, leaving
the cell untouched and propagating the error, or succeeds, fully replacing
the stored value-and-timestamp pair. -/
def getExpertsStep (cache : CacheCell) (now : Int)
    (fetchResult : Except String (List Item)) :
    CacheCell × Except String (List Item) :=
  let fresh := cache.data.isSome && (now - cache.timestamp < cache.ttl)
  if fresh then
    (cache, .ok (cache.data.getD []))
  else
    match fetchResult with
    | .error e => (cache, .error e)
    | .ok experts =>
      let active := filterActiveExperts experts
      ({ data := some active, timestamp := now, ttl := cache.ttl }, .ok active)

/-! Helper lemmas about characters and the slugify stages. -/

/-- Shape of a slug: word characters fixed by lowercasing or single
hyphens, with no hyphen at either end. -/
def SlugShape (l : List Char) : Prop :=
  (∀ c ∈ l, (isWordChar c = true ∧ Char.toLower c = c) ∨ c = '-') ∧
  List.Chain' (fun a b => ¬(a = '-' ∧ b = '-')) l ∧
  l.head? ≠ some '-' ∧ l.getLast? ≠ some '-'

lemma toLower_of_not_upper (c : Char) (h : ¬(65 ≤ c.toNat ∧ c.toNat ≤ 90)) :
    Char.toLower c = c := by
  unfold Char.toLower
  exact if_neg fun hh => h ⟨hh.1, hh.2⟩

lemma toNat_toLower (c : Char) :
    (Char.toLower c).toNat =
      if 65 ≤ c.toNat ∧ c.toNat ≤ 90 then c.toNat + 32 else c.toNat := by
  by_cases h : 65 ≤ c.toNat ∧ c.toNat ≤ 90
  · have hv : (c.toNat + 32).isValidChar := Or.inl (by omega)
    rw [if_pos h]
    unfold Char.toLower
    rw [if_pos ⟨h.1, h.2⟩]
    simp [Char.ofNat, hv]
    rfl
  · rw [if_neg h, toLower_of_not_upper c h]

lemma toLower_toLower (c : Char) : Char.toLower (Char.toLower c) = Char.toLower c := by
  apply toLower_of_not_upper
  rw [toNat_toLower]
  by_cases h : 65 ≤ c.toNat ∧ c.toNat ≤ 90
  · rw [if_pos h]; omega
  · rw [if_neg h]; omega

lemma not_whitespace_of_slugChar (c : Char)
    (h : (isWordChar c || c = '-') = true) : jsWhitespace c = false := by
  have hn : (65 ≤ c.toNat ∧ c.toNat ≤ 90) ∨ (97 ≤ c.toNat ∧ c.toNat ≤ 122) ∨
      (48 ≤ c.toNat ∧ c.toNat ≤ 57) ∨ c.toNat = 95 ∨ c.toNat = 45 := by
    rcases Bool.or_eq_true_iff.mp h with hw | he
    · simp only [isWordChar, Bool.or_eq_true, Bool.and_eq_true, decide_eq_true_eq] at hw
      omega
    · right; right; right; right
      have : c = '-' := by simpa using he
      subst this; rfl
  simp only [jsWhitespace, Bool.or_eq_false_iff, Bool.and_eq_false_iff,
    decide_eq_false_iff_not]
  omega

lemma dropWhile_eq_self_of_head (p : Char → Bool) (l : List Char)
    (h : ∀ c, l.head? = some c → p c = false) : l.dropWhile p = l := by
  cases l with
  | nil => rfl
  | cons c r =>
    rw [List.dropWhile_cons, if_neg]
    simp [h c rfl]

lemma head?_dropWhile (p : Char → Bool) (l : List Char) (c : Char)
    (h : (l.dropWhile p).head? = some c) : p c = false := by
  induction l with
  | nil => simp at h
  | cons a r ih =>
    rw [List.dropWhile_cons] at h
    by_cases hp : p a
    · exact ih (by simpa [hp] using h)
    · simp only [hp, if_neg, Bool.false_eq_true, not_false_iff, ite_false] at h
      simp only [List.head?_cons, Option.some.injEq] at h
      subst h
      exact Bool.eq_false_iff.mpr (by simpa using hp)

lemma dropWhile_decomposition (p : Char → Bool) (l : List Char) :
    ∃ t, t ++ l.dropWhile p = l := by
  induction l with
  | nil => exact ⟨[], rfl⟩
  | cons c r ih =>
    by_cases hp : p c
    · obtain ⟨t, ht⟩ := ih
      exact ⟨c :: t, by simp [List.dropWhile_cons, hp, ht]⟩
    · exact ⟨[], by simp [List.dropWhile_cons, hp]⟩

lemma chain'_dropWhile {R : Char → Char → Prop} (p : Char → Bool) (l : List Char)
    (h : List.Chain' R l) : List.Chain' R (l.dropWhile p) := by
  induction l with
  | nil => simpa using h
  | cons c r ih =>
    rw [List.dropWhile_cons]
    by_cases hp : p c
    · simpa [hp] using ih (List.chain'_cons'.mp h).2
    · simpa [hp] using h

lemma mem_jsTrim (l : List Char) (c : Char) (h : c ∈ jsTrim l) : c ∈ l := by
  unfold jsTrim at h
  rw [List.mem_reverse] at h
  have h1 := (List.dropWhile_sublist (l := (l.dropWhile jsWhitespace).reverse)
    jsWhitespace).mem h
  rw [List.mem_reverse] at h1
  exact (List.dropWhile_sublist jsWhitespace).mem h1

lemma mem_spacesToHyphens (b : Bool) (l : List Char) (c : Char)
    (h : c ∈ spacesToHyphens b l) : c = '-' ∨ c ∈ l := by
  induction l generalizing b with
  | nil => simp [spacesToHyphens] at h
  | cons a r ih =>
    rw [spacesToHyphens] at h
    by_cases hw : jsWhitespace a
    · by_cases hb : b
      · simp only [hw, hb, if_true] at h
        rcases ih true h with h' | h'
        · exact Or.inl h'
        · exact Or.inr (List.mem_cons_of_mem a h')
      · simp only [hw, hb, if_true, Bool.false_eq_true, if_false, List.mem_cons] at h
        rcases h with h | h
        · exact Or.inl h
        · rcases ih true h with h' | h'
          · exact Or.inl h'
          · exact Or.inr (List.mem_cons_of_mem a h')
    · simp only [hw, Bool.false_eq_true, if_false, List.mem_cons] at h
      rcases h with h | h
      · exact Or.inr (h ▸ List.mem_cons_self a r)
      · rcases ih false h with h' | h'
        · exact Or.inl h'
        · exact Or.inr (List.mem_cons_of_mem a h')

lemma mem_collapseHyphens (b : Bool) (l : List Char) (c : Char)
    (h : c ∈ collapseHyphens b l) : c = '-' ∨ c ∈ l := by
  induction l generalizing b with
  | nil => simp [collapseHyphens] at h
  | cons a r ih =>
    rw [collapseHyphens] at h
    by_cases hh : a = '-'
    · by_cases hb : b
      · simp only [hh, if_true, hb] at h
        rcases ih true h with h' | h'
        · exact Or.inl h'
        · exact Or.inr (List.mem_cons_of_mem a h')
      · simp only [hh, if_true, hb, Bool.false_eq_true, if_false, List.mem_cons] at h
        rcases h with h | h
        · exact Or.inl h
        · rcases ih true h with h' | h'
          · exact Or.inl h'
          · exact Or.inr (List.mem_cons_of_mem a h')
    · simp only [hh, if_false, List.mem_cons] at h
      rcases h with h | h
      · exact Or.inr (h ▸ List.mem_cons_self a r)
      · rcases ih false h with h' | h'
        · exact Or.inl h'
        · exact Or.inr (List.mem_cons_of_mem a h')

lemma collapseHyphens_chain (l : List Char) :
    List.Chain' (fun a b => ¬(a = '-' ∧ b = '-')) (collapseHyphens false l) ∧
    List.Chain' (fun a b => ¬(a = '-' ∧ b = '-')) (collapseHyphens true l) ∧
    (collapseHyphens true l).head? ≠ some '-' := by
  induction l with
  | nil => simp [collapseHyphens]
  | cons a r ih =>
    obtain ⟨hf, ht, hh⟩ := ih
    by_cases ha : a = '-'
    · subst ha
      refine ⟨?_, by simpa [collapseHyphens] using ht, by simpa [collapseHyphens] using hh⟩
      show List.Chain' _ ('-' :: collapseHyphens true r)
      rw [List.chain'_cons']
      refine ⟨?_, ht⟩
      intro y hy hc
      exact hh (hc.2 ▸ hy)
    · have hcons : ∀ b : Bool, collapseHyphens b (a :: r) = a :: collapseHyphens false r := by
        intro b
        cases b <;> simp [collapseHyphens, ha]
      refine ⟨?_, ?_, ?_⟩
      · rw [hcons, List.chain'_cons']
        exact ⟨fun y _ hc => ha hc.1, hf⟩
      · rw [hcons, List.chain'_cons']
        exact ⟨fun y _ hc => ha hc.1, hf⟩
      · rw [hcons]
        simpa using ha

lemma collapseHyphens_id (l : List Char)
    (h : List.Chain' (fun a b => ¬(a = '-' ∧ b = '-')) l) :
    collapseHyphens false l = l ∧
    (l.head? ≠ some '-' → collapseHyphens true l = l) := by
  induction l with
  | nil => simp [collapseHyphens]
  | cons a r ih =>
    obtain ⟨hrel, hr⟩ := List.chain'_cons'.mp h
    obtain ⟨ihf, iht⟩ := ih hr
    by_cases ha : a = '-'
    · subst ha
      constructor
      · show '-' :: collapseHyphens true r = '-' :: r
        congr 1
        apply iht
        intro hhd
        exact hrel '-' hhd ⟨rfl, rfl⟩
      · intro hhd
        exact absurd (rfl : ('-' :: r).head? = some '-') hhd
    · have hcons : ∀ b : Bool, collapseHyphens b (a :: r) = a :: collapseHyphens false r := by
        intro b
        cases b <;> simp [collapseHyphens, ha]
      exact ⟨by rw [hcons, ihf], fun _ => by rw [hcons, ihf]⟩

lemma spacesToHyphens_id (b : Bool) (l : List Char)
    (h : ∀ c ∈ l, jsWhitespace c = false) : spacesToHyphens b l = l := by
  induction l generalizing b with
  | nil => rfl
  | cons a r ih =>
    rw [spacesToHyphens]
    have ha := h a (List.mem_cons_self a r)
    simp only [ha, Bool.false_eq_true, if_false]
    rw [ih false fun c hc => h c (List.mem_cons_of_mem a hc)]

lemma dropWhile_eq_self_of_all (p : Char → Bool) (l : List Char)
    (h : ∀ c ∈ l, p c = false) : l.dropWhile p = l := by
  cases l with
  | nil => rfl
  | cons c r =>
    rw [List.dropWhile_cons, if_neg]
    simp [h c (List.mem_cons_self c r)]

lemma jsTrim_id (l : List Char) (h : ∀ c ∈ l, jsWhitespace c = false) :
    jsTrim l = l := by
  unfold jsTrim
  rw [dropWhile_eq_self_of_all _ _ h, dropWhile_eq_self_of_all, List.reverse_reverse]
  intro c hc
  exact h c (List.mem_reverse.mp hc)

lemma mem_trimTrailingHyphens (l : List Char) (c : Char)
    (h : c ∈ trimTrailingHyphens l) : c ∈ l := by
  unfold trimTrailingHyphens at h
  rw [List.mem_reverse] at h
  exact List.mem_reverse.mp ((List.dropWhile_sublist _).mem h)

lemma head?_of_append {A B : List Char} {c : Char} (h : A.head? = some c) :
    (A ++ B).head? = some c := by
  cases A with
  | nil => simp at h
  | cons a t => simpa using h

lemma trimTrailing_decomposition (l : List Char) :
    ∃ t, l = trimTrailingHyphens l ++ t := by
  obtain ⟨t, ht⟩ := dropWhile_decomposition (fun c => c = '-') l.reverse
  refine ⟨t.reverse, ?_⟩
  have := congrArg List.reverse ht
  rw [List.reverse_append, List.reverse_reverse] at this
  exact this.symm

lemma map_toLower_id (l : List Char) (h : ∀ c ∈ l, Char.toLower c = c) :
    l.map Char.toLower = l := by
  induction l with
  | nil => rfl
  | cons c r ih =>
    simp only [List.map_cons, h c (List.mem_cons_self c r)]
    rw [ih fun d hd => h d (List.mem_cons_of_mem c hd)]

lemma slugShape_slugifyChars (l : List Char) : SlugShape (slugifyChars l) := by
  have hL6 : slugifyChars l =
      trimTrailingHyphens (trimLeadingHyphens (collapseHyphens false
        (stripNonWord (spacesToHyphens false (jsTrim (l.map Char.toLower)))))) := rfl
  set L2 := spacesToHyphens false (jsTrim (l.map Char.toLower)) with hL2def
  set L3 := stripNonWord L2 with hL3def
  set L4 := collapseHyphens false L3 with hL4def
  set L5 := trimLeadingHyphens L4 with hL5def
  set L6 := trimTrailingHyphens L5 with hL6def
  obtain ⟨t6, ht6⟩ := trimTrailing_decomposition L5
  have hmem : ∀ c ∈ L6, c ∈ L4 := by
    intro c hc
    have h5 : c ∈ L5 := mem_trimTrailingHyphens L5 c hc
    exact (List.dropWhile_sublist _).mem h5
  refine ⟨?_, ?_, ?_, ?_⟩
  · intro c hc
    have h4 := hmem c hc
    rcases mem_collapseHyphens false L3 c h4 with hc' | hc'
    · exact Or.inr hc'
    · rw [hL3def] at hc'
      obtain ⟨h2, hw⟩ := List.mem_filter.mp hc'
      by_cases hdash : c = '-'
      · exact Or.inr hdash
      · left
        refine ⟨by simpa [hdash] using hw, ?_⟩
        rcases mem_spacesToHyphens false _ c h2 with h | h
        · exact absurd h hdash
        · have hmap := mem_jsTrim _ c h
          obtain ⟨d, _, hd⟩ := List.mem_map.mp hmap
          rw [← hd]
          exact toLower_toLower d
  · have h4 := (collapseHyphens_chain L3).1
    have h5 : List.Chain' (fun a b => ¬(a = '-' ∧ b = '-')) L5 :=
      chain'_dropWhile _ _ h4
    rw [ht6] at h5
    exact (List.chain'_append.mp h5).1
  · intro heq
    have h5 : L5.head? = some '-' := by
      rw [ht6]
      exact head?_of_append heq
    have := head?_dropWhile (fun c => c = '-') L4 '-' h5
    simp at this
  · intro heq
    rw [hL6] at heq
    have hx : (L5.reverse.dropWhile (fun c => c = '-')).head? = some '-' := by
      have : L6.getLast? = (L5.reverse.dropWhile (fun c => c = '-')).head? := by
        rw [hL6def]
        unfold trimTrailingHyphens
        rw [List.getLast?_reverse]
      rw [← this]
      exact heq
    have := head?_dropWhile (fun c => c = '-') L5.reverse '-' hx
    simp at this

lemma slugifyChars_id (l : List Char) (h : SlugShape l) : slugifyChars l = l := by
  obtain ⟨hchars, hchain, hhd, hlast⟩ := h
  have hslugchar : ∀ c ∈ l, (isWordChar c || c = '-') = true := by
    intro c hc
    rcases hchars c hc with ⟨hw, _⟩ | hd
    · simp [hw]
    · simp [hd]
  have hws : ∀ c ∈ l, jsWhitespace c = false := fun c hc =>
    not_whitespace_of_slugChar c (hslugchar c hc)
  have hlower : l.map Char.toLower = l := by
    apply map_toLower_id
    intro c hc
    rcases hchars c hc with ⟨_, hfix⟩ | hd
    · exact hfix
    · subst hd
      exact toLower_of_not_upper '-' (by decide)
  have hlead : trimLeadingHyphens l = l := by
    apply dropWhile_eq_self_of_head
    intro c hc
    by_cases hd : c = '-'
    · exact absurd (hd ▸ hc) hhd
    · simp [hd]
  have htrail : trimTrailingHyphens l = l := by
    unfold trimTrailingHyphens
    rw [dropWhile_eq_self_of_head, List.reverse_reverse]
    intro c hc
    rw [List.head?_reverse] at hc
    by_cases hd : c = '-'
    · exact absurd (hd ▸ hc) hlast
    · simp [hd]
  unfold slugifyChars
  rw [hlower, jsTrim_id l hws, spacesToHyphens_id false l hws,
    show stripNonWord l = l from List.filter_eq_self.mpr hslugchar,
    (collapseHyphens_id l hchain).1, hlead, htrail]

/-- C6: slugify is the exact staged transform — lowercase, trim, collapse
internal whitespace runs to a single hyphen, strip characters that are not
word characters or hyphens, collapse repeated hyphens, and trim
leading/trailing hyphens — and in particular it maps "Web  Design!" to
"web-design" and the empty string to the empty string. -/
theorem slugify_exact_transform :
    slugify "Web  Design!" = "web-design" ∧
    slugify "" = "" ∧
    ∀ s : String,
      slugify s = String.mk (trimTrailingHyphens (trimLeadingHyphens
        (collapseHyphens false (stripNonWord (spacesToHyphens false
          (jsTrim (s.data.map Char.toLower))))))) := by
  refine ⟨by decide, rfl, ?_⟩
  intro s
  by_cases h : s = ""
  · subst h
    rfl
  · rw [slugify, if_neg h]
    rfl

/-- C10: slugify is idempotent — applying it to its own output returns the
output unchanged — and every output is a fixed point of the transform: it
consists of word characters fixed by lowercasing and single internal
hyphens, with no leading or trailing hyphen (or it is empty). -/
theorem slugify_idempotent :
    ∀ s : String, slugify (slugify s) = slugify s ∧ SlugShape (slugify s).data := by
  intro s
  by_cases hs : s = ""
  · subst hs
    refine ⟨rfl, ?_, ?_, ?_, ?_⟩ <;> simp [slugify]
  · have hval : slugify s = String.mk (slugifyChars s.data) := by
      rw [slugify, if_neg hs]
    have hshape : SlugShape (slugifyChars s.data) := slugShape_slugifyChars s.data
    have hdata : (slugify s).data = slugifyChars s.data := by rw [hval]
    refine ⟨?_, by rw [hdata]; exact hshape⟩
    by_cases hX : slugify s = ""
    · rw [hX]
      rfl
    · rw [slugify, if_neg hX, hdata, slugifyChars_id _ hshape, ← hdata]

/-! Lemmas about the seeded shuffle. -/

lemma length_listSwap {α : Type} (l : List α) (i j : Nat) :
    (listSwap l i j).length = l.length := by
  unfold listSwap
  rcases hi : l.get? i with _ | a
  · rfl
  · rcases hj : l.get? j with _ | b
    · rfl
    · simp [List.length_set]

lemma length_shuffleSteps {α : Type} (rand : Int → ℚ) (seed : Int)
    (l : List α) (n : Nat) : (shuffleSteps rand seed l n).length = l.length := by
  induction n generalizing l with
  | zero => rfl
  | succ m ih => rw [shuffleSteps, ih, length_listSwap]

lemma length_seededShuffle {α : Type} (rand : Int → ℚ) (l : List α) (seed : Int) :
    (seededShuffle rand l seed).length = l.length :=
  length_shuffleSteps rand seed l (l.length - 1)

lemma cons_set_perm {α : Type} (t : List α) (k : Nat) (b c : α)
    (h : t.get? k = some b) : (b :: t.set k c).Perm (c :: t) := by
  induction t generalizing k with
  | nil => simp at h
  | cons d t' ih =>
    cases k with
    | zero =>
      simp only [List.get?, Option.some.injEq] at h
      subst h
      simpa [List.set] using List.Perm.swap c d t'
    | succ k' =>
      simp only [List.get?] at h
      have step := ih k' h
      have s1 : (b :: d :: t'.set k' c).Perm (d :: b :: t'.set k' c) :=
        List.Perm.swap d b _
      have s2 : (d :: b :: t'.set k' c).Perm (d :: c :: t') := step.cons d
      have s3 : (d :: c :: t').Perm (c :: d :: t') := List.Perm.swap c d t'
      simpa [List.set] using (s1.trans s2).trans s3

lemma set_set_perm {α : Type} :
    ∀ (l : List α) (i j : Nat) (a b : α), l.get? i = some a →
      l.get? j = some b → ((l.set i b).set j a).Perm l := by
  intro l
  induction l with
  | nil =>
    intro i j a b hi _
    simp at hi
  | cons d t ih =>
    intro i j a b hi hj
    cases i with
    | zero =>
      simp only [List.get?, Option.some.injEq] at hi
      subst hi
      cases j with
      | zero =>
        simp only [List.get?, Option.some.injEq] at hj
        subst hj
        simp [List.set]
      | succ k =>
        simp only [List.get?] at hj
        simpa [List.set] using cons_set_perm t k b d hj
    | succ i' =>
      cases j with
      | zero =>
        simp only [List.get?, Option.some.injEq] at hj
        subst hj
        simp only [List.get?] at hi
        simpa [List.set] using cons_set_perm t i' a d hi
      | succ j' =>
        simp only [List.get?] at hi hj
        simpa [List.set] using (ih i' j' a b hi hj).cons d

lemma listSwap_perm {α : Type} (l : List α) (i j : Nat) :
    (listSwap l i j).Perm l := by
  unfold listSwap
  rcases hi : l.get? i with _ | a
  · exact List.Perm.refl _
  rcases hj : l.get? j with _ | b
  · exact List.Perm.refl _
  exact set_set_perm l i j a b hi hj

lemma shuffleSteps_perm {α : Type} (rand : Int → ℚ) (seed : Int)
    (l : List α) (n : Nat) : (shuffleSteps rand seed l n).Perm l := by
  induction n generalizing l with
  | zero => exact List.Perm.refl l
  | succ m ih =>
    rw [shuffleSteps]
    exact (ih _).trans (listSwap_perm l (m + 1) (drawIndex rand seed (m + 1)))

lemma seededShuffle_perm {α : Type} (rand : Int → ℚ) (l : List α) (seed : Int) :
    (seededShuffle rand l seed).Perm l :=
  shuffleSteps_perm rand seed l (l.length - 1)

/-- C4: pagination contract of the get-experts handler — the items are
exactly the slice from offset to offset plus limit of the shuffled filtered
list, so there are min(limit, total minus offset) of them; total is the
post-filter pre-pagination count, count is the slice length, and hasMore
holds exactly when offset plus count is below total. -/
theorem pagination_contract (experts skills cities states certifications : List Item)
    (f : QueryFilters) (rand : Int → ℚ) (seed : Int) (k n : Nat) :
    (handleGetExperts experts skills cities states certifications f rand seed n k).items =
      ((seededShuffle rand (filterExperts
        (enrichExperts experts cities states skills certifications)
        skills certifications f) seed).drop k).take n ∧
    (handleGetExperts experts skills cities states certifications f rand seed n k).total =
      (filterExperts (enrichExperts experts cities states skills certifications)
        skills certifications f).length ∧
    (handleGetExperts experts skills cities states certifications f rand seed n k).count =
      min n ((filterExperts (enrichExperts experts cities states skills certifications)
        skills certifications f).length - k) ∧
    (handleGetExperts experts skills cities states certifications f rand seed n k).count =
      (handleGetExperts experts skills cities states certifications f rand seed n k).items.length ∧
    ((handleGetExperts experts skills cities states certifications f rand seed n k).hasMore = true ↔
      k + (handleGetExperts experts skills cities states certifications f rand seed n k).count <
        (filterExperts (enrichExperts experts cities states skills certifications)
          skills certifications f).length) := by
  refine ⟨rfl, rfl, ?_, rfl, ?_⟩
  · show (((seededShuffle rand _ seed).drop k).take n).length = _
    rw [List.length_take, List.length_drop, length_seededShuffle]
  · exact decide_eq_true_iff

/-- C9: cache refresh atomicity of the experts cache cell — when the cell
is not fresh, a refresh with a failing fetch leaves the stored
value-and-timestamp pair completely unchanged and propagates the error,
and a refresh with a successful fetch fully replaces the pair with the
newly fetched (archived-and-hidden-filtered) value and the current time. -/
theorem cache_refresh_atomicity (cache : CacheCell) (now : Int)
    (fetchResult : Except String (List Item))
    (hstale : cache.data.isSome = false ∨ ¬(now - cache.timestamp < cache.ttl)) :
    (∀ e, fetchResult = Except.error e →
      getExpertsStep cache now fetchResult = (cache, Except.error e)) ∧
    (∀ xs, fetchResult = Except.ok xs →
      getExpertsStep cache now fetchResult =
        ({ data := some (filterActiveExperts xs), timestamp := now, ttl := cache.ttl },
          Except.ok (filterActiveExperts xs))) := by
  have hfresh : (cache.data.isSome && decide (now - cache.timestamp < cache.ttl)) = false := by
    rcases hstale with h | h
    · simp [h]
    · simp [h]
  constructor
  · intro e he
    subst he
    unfold getExpertsStep
    simp [hfresh]
  · intro xs hx
    subst hx
    unfold getExpertsStep
    simp [hfresh]

theorem cache_refresh_atomicity_witness :
    getExpertsStep { data := none, timestamp := 0, ttl := 300000 } 7
        (Except.error "fetch failed") =
      ({ data := none, timestamp := 0, ttl := 300000 }, Except.error "fetch failed") :=
  (cache_refresh_atomicity { data := none, timestamp := 0, ttl := 300000 } 7
    (Except.error "fetch failed") (Or.inl rfl)).1 "fetch failed" rfl

/-! Concrete items used by counterexamples and witnesses. -/

/-- A state named Texas with id R1. -/
def cexState : Item := { id := "R1", fieldData := some { name := some "Texas" } }

/-- A category named Web Design with id C1. -/
def cexCategory : Item := { id := "C1", fieldData := some { name := some "Web Design" } }

/-- A skill named WordPress with id S1, referencing category C1. -/
def cexSkill : Item :=
  { id := "S1", fieldData := some { name := some "WordPress", expertCategory := ["C1"] } }

/-- A certification named AWS Cert with id X1, referencing category C1. -/
def cexCert : Item :=
  { id := "X1", fieldData := some { name := some "AWS Cert", category := ["C1"] } }

/-- An expert in state R1 holding certification X1 and no skills at all. -/
def cexExpert : Item :=
  { id := "E1", fieldData := some { state := some "R1", certifications := ["X1"] } }

/-- C2 counterexample: with a filter set containing a category id together
with a certification id, `countExpertsForRoute` counts an entry that has no
skill whatsoever (hence none in the category), and `generateAllRoutes`
keeps the corresponding combined category-and-certification route with
expert count 1 — contradicting the claim that a certification alone never
satisfies such a route during pruning. -/
theorem combined_category_filter_counterexample :
    countExpertsForRoute [cexExpert]
      { stateId := some "R1", categoryId := some "C1", certificationId := some "X1",
        skills := some [cexSkill], certifications := some [cexCert] } = 1 ∧
    (cexExpert.fieldData.getD {}).skills2 = [] ∧
    ((generateAllRoutes { cities := [], states := [cexState], skills := [cexSkill],
                          categories := [cexCategory], experts := [cexExpert],
                          certifications := [cexCert] } "/experts").allRoutes.map
      (fun r => (r.path, r.params.expertCount))).contains
        ("/experts/texas/web-design/aws-cert", some 1) = true := by
  decide

/-- C2 amended: during pruning the category dimension of a combined route is
not checked at all — whenever the filter set carries a truthy skill id or
certification id, `countExpertsForRoute` returns the same count as with the
category data removed entirely, so entries are counted by region, sub-unit
and skill/certification membership alone (the skill-in-category requirement
exists only in the query engine's filterExperts, not in pruning). -/
theorem combined_route_category_dimension_ignored (experts : List Item)
    (filters : RouteFilters)
    (h : truthy filters.skillId = true ∨ truthy filters.certificationId = true) :
    countExpertsForRoute experts filters =
      countExpertsForRoute experts
        { filters with categoryId := none, skills := none, certifications := none } := by
  unfold countExpertsForRoute
  congr 1
  apply List.filter_congr
  intro e _
  unfold expertMatchesRouteFilters
  rcases h with h | h <;>
    simp [h, show truthy (none : Option String) = false from rfl]

theorem combined_route_category_dimension_ignored_witness :
    (truthy (none : Option String) = true ∨ truthy (some "X1") = true) ∧
    countExpertsForRoute [cexExpert]
      { stateId := some "R1", categoryId := some "C1", certificationId := some "X1",
        skills := some [cexSkill], certifications := some [cexCert] } =
    countExpertsForRoute [cexExpert]
      { stateId := some "R1", categoryId := none, certificationId := some "X1",
        skills := none, certifications := none } :=
  ⟨Or.inr (by decide),
    combined_route_category_dimension_ignored [cexExpert]
      { stateId := some "R1", categoryId := some "C1", certificationId := some "X1",
        skills := some [cexSkill], certifications := some [cexCert] }
      (Or.inr (by decide))⟩

lemma contains_querySkillsInCategory (skills : List Item) (c : String)
    (hne : c ≠ "") (sid : String) :
    (querySkillsInCategory skills (some c)).contains sid =
      skills.any fun sk => sk.id == sid && sk.expertCategoryRefs.contains c := by
  unfold querySkillsInCategory
  rw [if_pos (by simp [truthy, hne])]
  apply Bool.eq_iff_iff.mpr
  simp only [List.contains_eq_any_beq, List.any_eq_true, List.mem_map, List.mem_filter,
    beq_iff_eq, Bool.and_eq_true]
  constructor
  · rintro ⟨x, ⟨sk, ⟨hmem, hcat⟩, hid⟩, hsid⟩
    exact ⟨sk, hmem, by rw [Option.getD_some] at hcat; exact ⟨by rw [hid, hsid], hcat⟩⟩
  · rintro ⟨sk, hmem, hid, hcat⟩
    exact ⟨sk.id, ⟨sk, ⟨hmem, by rw [Option.getD_some]; exact hcat⟩, rfl⟩, hid.symm⟩

/-- C3: with a (truthy) category filter, the query engine's filterExperts
is exactly the conjunctive filter — region, sub-unit, skill-membership and
certification-membership checks for the filters supplied, plus the
requirement that at least one of the expert's referenced skills belongs to
the category; a certification in the category never satisfies the category
dimension, so an expert whose only reference in the category is a
certification is excluded. -/
theorem category_query_filter_requires_skill
    (experts skills certifications : List Item) (f : QueryFilters)
    (c : String) (hc : f.categoryId = some c) (hne : c ≠ "") :
    filterExperts experts skills certifications f =
      experts.filter fun expert =>
        let data := expert.fieldData.getD {}
        (!truthy f.stateId || data.state == f.stateId) &&
        (!truthy f.cityId || data.city == f.cityId) &&
        (!truthy f.skillId || data.skills2.contains (f.skillId.getD "")) &&
        (!truthy f.certificationId ||
          data.certifications.contains (f.certificationId.getD "")) &&
        data.skills2.any (fun sid =>
          skills.any fun sk => sk.id == sid && sk.expertCategoryRefs.contains c) := by
  have hcat : truthy f.categoryId = true := by
    rw [hc]
    simp [truthy, hne]
  unfold filterExperts
  rw [if_neg (by simp [hcat])]
  apply List.filter_congr
  intro e _
  unfold expertMatchesQuery
  rw [hcat]
  simp only [Bool.not_true, Bool.false_or]
  congr 1
  rw [hc]
  apply congrArg
  funext sid
  exact contains_querySkillsInCategory skills c hne sid

theorem category_query_filter_requires_skill_witness :
    filterExperts [cexExpert] [cexSkill] [cexCert] { categoryId := some "C1" } = [] := by
  rw [category_query_filter_requires_skill [cexExpert] [cexSkill] [cexCert]
    { categoryId := some "C1" } "C1" rfl (by decide)]
  decide

/-- C5: the seeded daily shuffle — the shuffle is a pure function of the
list and the seed (equal seeds give identical orderings, so two queries
with the same filters on the same calendar day agree), the per-step draw
index stays within the unshuffled range for any fractional random value in
zero-inclusive-one-exclusive, the shuffle is a permutation of its input for
every seed (so different days permute but never change membership), and the
daily seed is year times one thousand plus the day of year. -/
theorem deterministic_daily_shuffle (rand : Int → ℚ)
    (hrand : ∀ s : Int, 0 ≤ rand s ∧ rand s < 1) :
    (∀ (seed : Int) (i : Nat), drawIndex rand seed i ≤ i) ∧
    (∀ (l : List Item) (seed1 seed2 : Int), seed1 = seed2 →
      seededShuffle rand l seed1 = seededShuffle rand l seed2) ∧
    (∀ (experts skills cities states certifications : List Item)
        (f : QueryFilters) (limit offset : Nat) (seed1 seed2 : Int),
      seed1 = seed2 →
      (handleGetExperts experts skills cities states certifications
        f rand seed1 limit offset).items =
      (handleGetExperts experts skills cities states certifications
        f rand seed2 limit offset).items) ∧
    (∀ (l : List Item) (seed : Int), (seededShuffle rand l seed).Perm l) ∧
    (∀ year diffMs : Nat,
      getDailySeed year diffMs = year * 1000 + diffMs / 86400000) := by
  refine ⟨?_, ?_, ?_, ?_, ?_⟩
  · intro seed i
    unfold drawIndex
    obtain ⟨h0, h1⟩ := hrand (seed + (i : Int))
    have hpos : (0 : ℚ) < (i : ℚ) + 1 := by positivity
    have hlt : rand (seed + (i : Int)) * ((i : ℚ) + 1) < (i : ℚ) + 1 := by
      calc rand (seed + (i : Int)) * ((i : ℚ) + 1) < 1 * ((i : ℚ) + 1) :=
            mul_lt_mul_of_pos_right h1 hpos
        _ = (i : ℚ) + 1 := one_mul _
    have hfl : ⌊rand (seed + (i : Int)) * ((i : ℚ) + 1)⌋ < (i : Int) + 1 := by
      rw [Int.floor_lt]
      push_cast
      exact hlt
    rw [Int.toNat_le]
    omega
  · intro l s1 s2 h
    rw [h]
  · intro experts skills cities states certifications f limit offset s1 s2 h
    rw [h]
  · intro l seed
    exact seededShuffle_perm rand l seed
  · intro y d
    rfl

theorem deterministic_daily_shuffle_witness :
    (∀ s : Int, 0 ≤ (1 : ℚ)/2 ∧ (1 : ℚ)/2 < 1) ∧
    (seededShuffle (fun _ : Int => (1 : ℚ)/2) [cexExpert, cexState]
      (getDailySeed 2026 950400000)).Perm [cexExpert, cexState] :=
  ⟨fun _ => ⟨by norm_num, by norm_num⟩,
    (deterministic_daily_shuffle (fun _ : Int => (1 : ℚ)/2)
      (fun _ => ⟨by norm_num, by norm_num⟩)).2.2.2.1 [cexExpert, cexState]
      (getDailySeed 2026 950400000)⟩

/-- C7: category fan-out — for a state with a routable slug and a skill
whose category-reference list contains two distinct resolvable categories,
`generateStateRoutes` emits two distinct routes, one per referenced
category, each with the path built from that category's slug; and a skill
none of whose category references resolves to a routable category
contributes no routes at all. -/
theorem category_fanout (states skills categories : List Item) (basePath : String)
    (st sk catA catB : Item) (A B ss ks sa sb : String)
    (hst : st ∈ states) (hsk : sk ∈ skills)
    (hss : routableSlug st = some ss) (hks : routableSlug sk = some ks)
    (hA : A ∈ sk.expertCategoryRefs) (hB : B ∈ sk.expertCategoryRefs)
    (hAB : A ≠ B)
    (hcatA : mapGetById categories A = some catA)
    (hcatB : mapGetById categories B = some catB)
    (hsa : routableSlug catA = some sa) (hsb : routableSlug catB = some sb) :
    (∃ rA rB,
      rA ∈ generateStateRoutes states skills categories basePath ∧
      rB ∈ generateStateRoutes states skills categories basePath ∧
      rA.path = basePath ++ "/" ++ ss ++ "/" ++ sa ++ "/" ++ ks ∧
      rB.path = basePath ++ "/" ++ ss ++ "/" ++ sb ++ "/" ++ ks ∧
      rA.params.categoryId = some A ∧ rB.params.categoryId = some B ∧
      rA.params.skillId = some sk.id ∧ rB.params.skillId = some sk.id ∧
      rA.params.stateId = some st.id ∧ rB.params.stateId = some st.id ∧
      rA ≠ rB) ∧
    (∀ state stateSlug skill,
      (∀ cid ∈ skill.expertCategoryRefs,
        (mapGetById categories cid).bind routableSlug = none) →
      stateRoutesForSkill categories basePath state stateSlug skill = []) := by
  have hid : ∀ (c : String) (cat : Item), mapGetById categories c = some cat →
      cat.id = c := by
    intro c cat hc
    unfold mapGetById at hc
    have := List.find?_some hc
    exact beq_iff_eq.mp this
  have hmemgen : ∀ (c : String) (cat : Item) (cs : String),
      c ∈ sk.expertCategoryRefs → mapGetById categories c = some cat →
      routableSlug cat = some cs →
      ({ path := basePath ++ "/" ++ ss ++ "/" ++ cs ++ "/" ++ ks,
         type := "state",
         params := {
           state := some ss, category := some cs, skill := some ks,
           stateId := some st.id, categoryId := some cat.id,
           skillId := some sk.id,
           stateName := st.displayName, categoryName := cat.displayName,
           skillName := sk.displayName } } : Route) ∈
        generateStateRoutes states skills categories basePath := by
    intro c cat cs hc hcat hcs
    unfold generateStateRoutes
    rw [List.mem_flatMap]
    refine ⟨st, hst, ?_⟩
    rw [hss, List.mem_flatMap]
    refine ⟨sk, hsk, ?_⟩
    unfold stateRoutesForSkill
    rw [hks, List.mem_filterMap]
    refine ⟨c, hc, ?_⟩
    simp only [hcat, hcs]
  constructor
  · refine ⟨_, _, hmemgen A catA sa hA hcatA hsa, hmemgen B catB sb hB hcatB hsb,
      rfl, rfl, ?_, ?_, rfl, rfl, rfl, rfl, ?_⟩
    · show some catA.id = some A
      rw [hid A catA hcatA]
    · show some catB.id = some B
      rw [hid B catB hcatB]
    · intro heq
      have : some catA.id = some catB.id := congrArg (fun r => r.params.categoryId) heq
      rw [hid A catA hcatA, hid B catB hcatB] at this
      exact hAB (Option.some.injEq _ _ ▸ this)
  · intro state stateSlug skill hnone
    unfold stateRoutesForSkill
    rcases hsl : routableSlug skill with _ | ksl
    · rfl
    · rw [List.filterMap_eq_nil]
      intro cid hcid
      have hb := hnone cid hcid
      rcases hm : mapGetById categories cid with _ | cat
      · simp only [hm]
      · rw [hm, Option.some_bind] at hb
        simp only [hm, hb]

/-- C8: sub-unit-to-region resolution — a city's state reference is
resolved by identifier lookup first; only when that misses (and the
reference is a present string) is the case-insensitive name lookup used;
when both lookups miss, the city contributes no city-level routes and no
state-and-city route (it is skipped, not an error); an identifier hit is
preferred regardless of what the name map holds. -/
theorem city_state_resolution (states : List Item) (city : Item) :
    (∀ r st, cityStateRef city = some r → mapGetById states r = some st →
      resolveStateForCity states city = some st) ∧
    (∀ r, cityStateRef city = some r → mapGetById states r = none →
      resolveStateForCity states city = stateByLowerName states (lowerString r)) ∧
    (resolveStateForCity states city = none →
      (∀ skills categories basePath,
        cityRoutesForCity states skills categories basePath city = []) ∧
      (∀ basePath, stateCityRouteForCity states basePath city = none)) := by
  refine ⟨?_, ?_, ?_⟩
  · intro r st hr hid
    unfold resolveStateForCity
    rw [hr]
    simp only [hid]
  · intro r hr hid
    unfold resolveStateForCity
    rw [hr]
    simp only [hid]
  · intro hres
    constructor
    · intro skills categories basePath
      unfold cityRoutesForCity
      rcases hcs : routableSlug city with _ | citySlug
      · rfl
      · rw [hres]
    · intro basePath
      unfold stateCityRouteForCity
      rcases hcs : routableSlug city with _ | citySlug
      · rfl
      · rw [hres]

/-- A city named Dallas whose state reference field holds the id R1. -/
def cexCity : Item :=
  { id := "CT1", fieldData := some { name := some "Dallas", state := some "R1" } }

theorem city_state_resolution_witness :
    cityStateRef cexCity = some "R1" ∧
    mapGetById [cexState] "R1" = some cexState ∧
    resolveStateForCity [cexState] cexCity = some cexState :=
  ⟨by decide, by decide,
    (city_state_resolution [cexState] cexCity).1 "R1" cexState (by decide) (by decide)⟩

/-- A second category, named Marketing, with id C2. -/
def cexCategoryB : Item := { id := "C2", fieldData := some { name := some "Marketing" } }

/-- A skill named SEO with id S2, referencing the two categories C1 and C2. -/
def cexSkillAB : Item :=
  { id := "S2", fieldData := some { name := some "SEO", expertCategory := ["C1", "C2"] } }

theorem category_fanout_witness :
    ∃ rA rB,
      rA ∈ generateStateRoutes [cexState] [cexSkillAB] [cexCategory, cexCategoryB] "/experts" ∧
      rB ∈ generateStateRoutes [cexState] [cexSkillAB] [cexCategory, cexCategoryB] "/experts" ∧
      rA.path = "/experts" ++ "/" ++ "texas" ++ "/" ++ "web-design" ++ "/" ++ "seo" ∧
      rB.path = "/experts" ++ "/" ++ "texas" ++ "/" ++ "marketing" ++ "/" ++ "seo" ∧
      rA.params.categoryId = some "C1" ∧ rB.params.categoryId = some "C2" ∧
      rA.params.skillId = some cexSkillAB.id ∧ rB.params.skillId = some cexSkillAB.id ∧
      rA.params.stateId = some cexState.id ∧ rB.params.stateId = some cexState.id ∧
      rA ≠ rB :=
  (category_fanout [cexState] [cexSkillAB] [cexCategory, cexCategoryB] "/experts"
    cexState cexSkillAB cexCategory cexCategoryB "C1" "C2" "texas" "seo"
    "web-design" "marketing"
    (by decide) (by decide) (by decide) (by decide) (by decide) (by decide)
    (by decide) (by decide) (by decide) (by decide) (by decide)).1

/-- The seven candidate route lists of `generateAllRoutes`, in source
order, each route paired with the filter record `generateAllRoutes` passes
to `countExpertsForRoute` for it. -/
def routeCandidates (data : GenData) (basePath : String) :
    List (Route × RouteFilters) :=
  ((generateStateCategoryRoutes data.states data.categories basePath).map
    fun r => (r, stateCategoryFilters data.skills data.certifications r)) ++
  ((generateStateCityRoutes data.cities data.states basePath).map
    fun r => (r, stateCityFilters r)) ++
  ((generateStateCityCategoryRoutes data.cities data.states data.categories basePath).map
    fun r => (r, stateCityCategoryFilters data.skills data.certifications r)) ++
  ((generateStateRoutes data.states data.skills data.categories basePath).map
    fun r => (r, stateSkillFilters r)) ++
  ((generateCityRoutes data.cities data.states data.skills data.categories basePath).map
    fun r => (r, citySkillFilters r)) ++
  ((generateStateCertificationRoutes data.states data.certifications data.categories basePath).map
    fun r => (r, stateCertFilters r)) ++
  ((generateCityCertificationRoutes data.cities data.states data.certifications data.categories basePath).map
    fun r => (r, cityCertFilters r))

lemma pruneRoutes_eq_filterMap (experts : List Item)
    (mkFilters : Route → RouteFilters) (routes : List Route) :
    pruneRoutes experts mkFilters routes =
      (routes.map fun r => (r, mkFilters r)).filterMap (pruneStep experts) := by
  unfold pruneRoutes
  rw [List.filterMap_map]
  rfl

lemma allRoutes_eq_candidates (data : GenData) (basePath : String)
    (h : data.experts ≠ []) :
    (generateAllRoutes data basePath).allRoutes =
      (routeCandidates data basePath).filterMap (pruneStep data.experts) := by
  unfold generateAllRoutes routeCandidates
  simp only [h, if_pos, ite_true, if_true, ne_eq, not_false_iff]
  simp only [pruneRoutes_eq_filterMap, List.filterMap_append]

lemma pruneStep_eq_some (experts : List Item) (rc : Route × RouteFilters)
    (r : Route) :
    pruneStep experts rc = some r ↔
      0 < countExpertsForRoute experts rc.2 ∧
      r = { rc.1 with params := { rc.1.params with
        expertCount := some (countExpertsForRoute experts rc.2) } } := by
  unfold pruneStep
  by_cases hc : 0 < countExpertsForRoute experts rc.2
  · rw [if_pos hc]
    constructor
    · intro hsome
      exact ⟨hc, ((Option.some.injEq _ _).mp hsome).symm⟩
    · rintro ⟨_, rfl⟩
      rfl
  · rw [if_neg hc]
    constructor
    · intro hnone
      exact absurd hnone (by simp)
    · rintro ⟨hpos, _⟩
      exact absurd hpos hc

/-- C1: pruning invariant — with a non-empty expert list, every route in
the generated route list carries an expert count of at least one, every
parameter bag stored in the manifest carries an expert count of at least
one, and a path is present in the manifest exactly when some candidate
route has that path and an expert count of at least one at generation
time. -/
theorem pruning_invariant (data : GenData) (basePath generatedAt : String)
    (h : data.experts ≠ []) :
    (∀ r ∈ (generateAllRoutes data basePath).allRoutes,
      ∃ n, r.params.expertCount = some n ∧ 1 ≤ n) ∧
    (∀ kv ∈ (createRouteManifest
        (generateAllRoutes data basePath).allRoutes generatedAt).routes,
      ∃ n, kv.2.expertCount = some n ∧ 1 ≤ n) ∧
    (∀ p, (manifestLookup (createRouteManifest
        (generateAllRoutes data basePath).allRoutes generatedAt) p).isSome = true ↔
      ∃ rc ∈ routeCandidates data basePath, rc.1.path = p ∧
        1 ≤ countExpertsForRoute data.experts rc.2) := by
  have hall := allRoutes_eq_candidates data basePath h
  have hany : ∀ r ∈ (generateAllRoutes data basePath).allRoutes,
      ∃ n, r.params.expertCount = some n ∧ 1 ≤ n := by
    intro r hr
    rw [hall] at hr
    obtain ⟨rc, _, hf⟩ := List.mem_filterMap.mp hr
    obtain ⟨hc, hr'⟩ := (pruneStep_eq_some data.experts rc r).mp hf
    exact ⟨countExpertsForRoute data.experts rc.2, by rw [hr'], hc⟩
  refine ⟨hany, ?_, ?_⟩
  · intro kv hkv
    unfold createRouteManifest at hkv
    obtain ⟨r, hr, hkv'⟩ := List.mem_map.mp hkv
    obtain ⟨n, hn, h1⟩ := hany r hr
    exact ⟨n, by rw [← hkv']; exact hn, h1⟩
  · intro p
    unfold manifestLookup createRouteManifest
    rw [Option.isSome_map']
    rw [List.find?_isSome]
    constructor
    · rintro ⟨kv, hkv, hp⟩
      rw [List.mem_reverse] at hkv
      obtain ⟨r, hr, hkv'⟩ := List.mem_map.mp hkv
      rw [hall] at hr
      obtain ⟨rc, hrc, hf⟩ := List.mem_filterMap.mp hr
      obtain ⟨hc, hr'⟩ := (pruneStep_eq_some data.experts rc r).mp hf
      refine ⟨rc, hrc, ?_, hc⟩
      have hpath : r.path = rc.1.path := by rw [hr']
      have hkvp : kv.1 = r.path := by rw [← hkv']
      have := beq_iff_eq.mp hp
      rw [← hpath, ← hkvp, this]
    · rintro ⟨rc, hrc, hp, hc⟩
      refine ⟨(rc.1.path, { rc.1.params with
        expertCount := some (countExpertsForRoute data.experts rc.2) }), ?_, ?_⟩
      · rw [List.mem_reverse]
        apply List.mem_map.mpr
        refine ⟨{ rc.1 with params := { rc.1.params with
          expertCount := some (countExpertsForRoute data.experts rc.2) } }, ?_, rfl⟩
        rw [hall]
        apply List.mem_filterMap.mpr
        exact ⟨rc, hrc, (pruneStep_eq_some data.experts rc _).mpr ⟨hc, rfl⟩⟩
      · show (rc.1.path == p) = true
        rw [hp]
        exact beq_self_eq_true p

theorem pruning_invariant_witness :
    [cexExpert] ≠ ([] : List Item) ∧
    (∀ r ∈ (generateAllRoutes { cities := [], states := [cexState],
                                skills := [cexSkill], categories := [cexCategory],
                                experts := [cexExpert],
                                certifications := [cexCert] } "/experts").allRoutes,
      ∃ n, r.params.expertCount = some n ∧ 1 ≤ n) :=
  ⟨by decide,
    (pruning_invariant { cities := [], states := [cexState], skills := [cexSkill],
                         categories := [cexCategory], experts := [cexExpert],
                         certifications := [cexCert] } "/experts" "2026-10-12T00:00:00.000Z"
      (by decide)).1⟩

end ExpertsRouter
